import Mathlib

/-!
# Verification of the prompt-battles untrusted-code admission and execution pipeline

Shallow embedding of the core of the repository (`src/llm/CodeValidator.ts`,
`src/entities/Tank.ts`, `src/sandbox/TankBrain.ts`, `src/scenes/BattleScene.ts`,
and the generation orchestrator `LLMService`), together with theorems settling
the frozen claims about it.

Modelling conventions:
* JavaScript strings are modelled as `List Char`; JS `number` is modelled as `ℚ`
  (the scripts and the engine only ever combine values by field arithmetic and
  comparisons in the fragments the claims are about).
* JS exceptions are modelled explicitly: a computation that can throw returns an
  `Option String` error component (or `Except`), and a `try { … } catch { … }`
  in the source becomes a `match` on that component.
* The JS engine itself (the `new Function` parser and the compiled callable) is
  external to the repository; stages that call into it (`validateSyntax`,
  `testExecution`) are parameters of the embedded pipeline.
* All definitions are structurally recursive (loops use explicit fuel bounded by
  the input length) so that every concrete witness evaluates by kernel reduction.
-/

namespace PromptBattles

/-! ## Character classes (JS regex `\s` and `\w`, ASCII range used by the scripts) -/

/-- JS whitespace (the ASCII part of regex `\s` / `String.prototype.trim`). -/
def isJsSpace (c : Char) : Bool :=
  c = ' ' || c = '\t' || c = '\n' || c = '\r' || c = '\x0b' || c = '\x0c'

/-- JS regex `\w`: `[A-Za-z0-9_]`. -/
def isWordChar (c : Char) : Bool :=
  ('a' ≤ c && c ≤ 'z') || ('A' ≤ c && c ≤ 'Z') || ('0' ≤ c && c ≤ '9') || c = '_'

/-! ## Sensors (src/types/game.ts and src/entities/Tank.ts) -/

/-- `SensorConfig` from `src/types/game.ts`: one detection cone. -/
structure SensorConfig where
  arc : ℚ
  range : ℚ
  offset : ℚ
deriving DecidableEq, Repr

/-- `SENSOR_CONSTRAINTS` from `src/types/game.ts`. -/
structure SensorConstraints where
  maxSensors : ℕ
  maxArc : ℚ
  maxRange : ℚ
  minArc : ℚ
  minRange : ℚ
deriving DecidableEq, Repr

def SENSOR_CONSTRAINTS : SensorConstraints :=
  { maxSensors := 8, maxArc := 120, maxRange := 400, minArc := 10, minRange := 50 }

/-- `Phaser.Math.Clamp(value, min, max) = Math.max(min, Math.min(max, value))`. -/
def clampQ (value lo hi : ℚ) : ℚ := max lo (min hi value)

/-- The per-sensor clamping performed by `Tank.configureSensors`
(`arc` into `[minArc, maxArc]`, `range` into `[minRange, maxRange]`,
`offset` kept as is). -/
def clampSensor (c : SensorConfig) : SensorConfig :=
  { arc := clampQ c.arc SENSOR_CONSTRAINTS.minArc SENSOR_CONSTRAINTS.maxArc
    range := clampQ c.range SENSOR_CONSTRAINTS.minRange SENSOR_CONSTRAINTS.maxRange
    offset := c.offset }

/-- The part of the `Tank` entity state (src/entities/Tank.ts) the claims are
about.  `headingDeg` is the tank's rotation viewed in degrees (the source
stores radians and converts with `RadToDeg` at every use relevant here). -/
structure TankState where
  x : ℚ
  y : ℚ
  headingDeg : ℚ
  turretHeadingDeg : ℚ := 0
  sensors : List SensorConfig
  health : ℚ
  moveInput : ℚ
  turnInput : ℚ
  targetAimDeg : ℚ := 0
  fireReady : Bool
  wantsFire : Bool
  gunRange : ℚ := 350
  arenaWidth : ℚ := 1200
  arenaHeight : ℚ := 800
deriving DecidableEq, Repr

/-- `Tank.configureSensors`: atomic bulk replace.  Returns the JS boolean result
together with the (possibly unchanged) tank. -/
def configureSensors (t : TankState) (configs : List SensorConfig) : Bool × TankState :=
  if configs.length = 0 || decide (configs.length > SENSOR_CONSTRAINTS.maxSensors) then
    (false, t)
  else
    (true, { t with sensors := configs.map clampSensor })

/-! ## Angle normalization (the two `while` loops in `Tank.isPointInSensorIndex`)

`while (angleDiff > 180) angleDiff -= 360; while (angleDiff < -180) angleDiff += 360;`
Each loop is embedded with explicit fuel; the fuel chosen below is provably
sufficient for the loop to reach its exit condition. -/

def wrapHighF : ℕ → ℚ → ℚ
  | 0, x => x
  | n + 1, x => if x > 180 then wrapHighF n (x - 360) else x

def wrapHighFuel (x : ℚ) : ℕ := (⌈x⌉ - 180).toNat

/-- `while (angleDiff > 180) angleDiff -= 360`. -/
def wrapHigh (x : ℚ) : ℚ := wrapHighF (wrapHighFuel x) x

def wrapLowF : ℕ → ℚ → ℚ
  | 0, x => x
  | n + 1, x => if x < -180 then wrapLowF n (x + 360) else x

def wrapLowFuel (x : ℚ) : ℕ := (-⌊x⌋ - 180).toNat

/-- `while (angleDiff < -180) angleDiff += 360`. -/
def wrapLow (x : ℚ) : ℚ := wrapLowF (wrapLowFuel x) x

/-- The normalization performed by `Tank.isPointInSensorIndex`: first reduce
from above, then from below. -/
def normalizeAngleDiff (x : ℚ) : ℚ := wrapLow (wrapHigh x)

/-- Modelled from the spec: "the signed angular difference normalized into
`(-180°, 180°]`", as a closed formula.  Used only to compare the source's
loop-based normalization with the spec's wording. -/
def specNormalize (x : ℚ) : ℚ := x - 360 * ⌈(x - 180) / 360⌉

/-! ## Sensor cone membership (Tank.isPointInSensorIndex / isPointDetectable)

The source receives the target as a Cartesian point and converts it to polar
form with `Math.sqrt` / `Math.atan2` (the platform math library).  The
embedding takes the target already in that polar form relative to the
observer: its bearing in degrees and its distance. -/

/-- Body of `Tank.isPointInSensorIndex` after the index bounds check:
range is checked first (quick reject), then the angular test. -/
def sensorConeTest (s : SensorConfig) (tankHeadingDeg bearingDeg dist : ℚ) : Bool :=
  if dist > s.range then
    false
  else
    let sensorCenterAngle := tankHeadingDeg + s.offset
    let angleDiff := normalizeAngleDiff (bearingDeg - sensorCenterAngle)
    let halfArc := s.arc / 2
    decide (|angleDiff| ≤ halfArc)

/-- `Tank.isPointInSensorIndex` (out-of-range sensor indices are rejected,
matching the source bounds check). -/
def isPointInSensorIndex (t : TankState) (bearingDeg dist : ℚ) (sensorIndex : ℕ) : Bool :=
  match t.sensors.get? sensorIndex with
  | none => false
  | some s => sensorConeTest s t.headingDeg bearingDeg dist

/-- `Tank.isPointDetectable`: true iff some configured sensor's cone contains
the point. -/
def isPointDetectable (t : TankState) (bearingDeg dist : ℚ) : Bool :=
  (List.range t.sensors.length).any fun i => isPointInSensorIndex t bearingDeg dist i

/-- A tank used by the concrete end-to-end scenario checks: heading 0°, one
sensor `{arc: 90, range: 400, offset: 0}`. -/
def scenarioTank : TankState :=
  { x := 0, y := 0, headingDeg := 0, sensors := [⟨90, 400, 0⟩], health := 100
    moveInput := 0, turnInput := 0, fireReady := true, wantsFire := false }

/-! ## Enemy snapshots and getNearestEnemy (src/sandbox/TankBrain.ts) -/

/-- `EnemyInfo` snapshot (src/types/game.ts), restricted to the fields the
claims are about.  The enemy's `position` is carried in polar form relative
to the observing tank (bearing and geometric distance, exactly the values
`Math.atan2` / `Math.sqrt` compute from the Cartesian point in
`Tank.isPointInSensorIndex`); `distance` is the separately precomputed
snapshot field that `getNearestEnemy` sorts by. -/
structure EnemyInfo where
  id : String
  bearingDeg : ℚ
  posDist : ℚ
  distance : ℚ
  health : ℚ
deriving DecidableEq, Repr

/-- Stable insertion, modelling the JS stable `Array.prototype.sort` with
comparator `(a, b) => a.distance - b.distance` (ties keep input order). -/
def insertByDistance (e : EnemyInfo) : List EnemyInfo → List EnemyInfo
  | [] => [e]
  | f :: fs => if f.distance ≤ e.distance then f :: insertByDistance e fs else e :: f :: fs

def sortByDistance : List EnemyInfo → List EnemyInfo
  | [] => []
  | e :: es => insertByDistance e (sortByDistance es)

/-- `TankAPI.getNearestEnemy` (src/sandbox/TankBrain.ts): filter the enemy
snapshot to those detectable by at least one sensor cone, sort ascending by
the `distance` field, and return the first element (JS `null` = `none`). -/
def getNearestEnemy (t : TankState) (enemies : List EnemyInfo) : Option EnemyInfo :=
  (sortByDistance (enemies.filter fun e => isPointDetectable t e.bearingDeg e.posDist)).head?

/-! ## Loop guard injection (CodeValidator.injectLoopGuards)

The source performs two global regex replaces on the script text,
`/\bwhile\s*\(([^)]+)\)\s*\{/g` then `/\bfor\s*\(([^)]+)\)\s*\{/g`, rewriting
each matched loop header to
`{ let __loopGuardN=0; KW (COND) { if(++__loopGuardN>100)break;`
with a shared counter `N`, and finally appends one `" }"` per injected guard.
The scan below mirrors JS `String.replace` semantics: leftmost matches,
non-overlapping, continuing after each match; `[^)]+` cannot cross `)`, so the
capture always runs to the first `)` after the `(`. -/

/-- JS regex word boundary `\b` before a keyword: the preceding character
(if any) is not a word character. -/
def boundaryBefore (prev : Option Char) : Bool :=
  match prev with
  | none => true
  | some c => !isWordChar c

def whileKw : List Char := ['w', 'h', 'i', 'l', 'e']

def forKw : List Char := ['f', 'o', 'r']

/-- Match of `\bKW\s*\(([^)]+)\)\s*\{` at the current position: returns the
number of characters consumed and the captured condition, or `none`. -/
def loopHeadMatch (kw : List Char) (prev : Option Char) (cs : List Char) :
    Option (ℕ × List Char) :=
  if boundaryBefore prev && kw.isPrefixOf cs then
    let cs1 := cs.drop kw.length
    let ws1 := (cs1.takeWhile isJsSpace).length
    match cs1.drop ws1 with
    | '(' :: cs3 =>
      let cond := cs3.takeWhile fun c => !(c = ')')
      if cond.length = 0 then none
      else
        match cs3.drop cond.length with
        | ')' :: cs5 =>
          let ws2 := (cs5.takeWhile isJsSpace).length
          match cs5.drop ws2 with
          | '\x7b' :: _ =>
            some (kw.length + ws1 + 1 + cond.length + 1 + ws2 + 1, cond)
          | _ => none
        | _ => none
    | _ => none
  else none

/-- `__loopGuardN`. -/
def guardVar (n : ℕ) : List Char := "__loopGuard".data ++ (Nat.repr n).data

/-- The replacement text for one matched loop header:
`{ let __loopGuardN=0; KW (COND) { if(++__loopGuardN>100)break;`
(`LOOP_LIMIT` is the fixed ceiling 100). -/
def guardOpen (kw : List Char) (n : ℕ) (cond : List Char) : List Char :=
  "\x7b let ".data ++ guardVar n ++ "=0; ".data ++ kw ++ " (".data ++ cond
    ++ ") \x7b if(++".data ++ guardVar n ++ ">100)break;".data

/-- One global-replace pass for keyword `kw`, threading the shared guard
counter.  `fuel` bounds the scan; any fuel above the input length is enough,
since every step consumes at least one character of `cs`. -/
def loopPassF (kw : List Char) : ℕ → Option Char → List Char → ℕ → List Char × ℕ
  | 0 => fun _ cs n => (cs, n)
  | fuel + 1 => fun prev cs n =>
    match loopHeadMatch kw prev cs with
    | some kc =>
      let r := loopPassF kw fuel (some '\x7b') (cs.drop kc.1) (n + 1)
      (guardOpen kw n kc.2 ++ r.1, r.2)
    | none =>
      match cs with
      | [] => ([], n)
      | c :: cs' =>
        let r := loopPassF kw fuel (some c) cs' n
        (c :: r.1, r.2)

/-- Both passes of `injectLoopGuards` (while, then for, sharing the counter):
the rewritten text together with the total number of guards injected. -/
def injectLoopGuardsCore (code : List Char) : List Char × ℕ :=
  let p1 := loopPassF whileKw (code.length + 1) none code 0
  loopPassF forKw (p1.1.length + 1) none p1.1 p1.2

/-- The `" }"` closers appended at the very end, one per injected guard. -/
def closeBraces (n : ℕ) : List Char := (List.replicate n [' ', '\x7d']).join

/-- `CodeValidator.injectLoopGuards`. -/
def injectLoopGuards (code : List Char) : List Char :=
  (injectLoopGuardsCore code).1 ++ closeBraces (injectLoopGuardsCore code).2

/-- The literal loop header `while(true){` (no spaces), as matched in scripts
containing a `while(true){...}` loop. -/
def whileTrueHead : List Char :=
  ['w', 'h', 'i', 'l', 'e', '(', 't', 'r', 'u', 'e', ')', '\x7b']

/-- A concrete script body `while(true){x=x+1;}` used by the witness. -/
def sampleLoopBody : List Char :=
  whileTrueHead ++ ['x', '=', 'x', '+', '1', ';', '\x7d']

/-! ### Semantics of one injected guard

`{ let g=0; while (cond) { if(++g>100)break; body } }` as a state
transformer: `cond` and `body` are the (pure) meanings of the original loop
condition and body over the program state `σ` (which includes any capability
stub the script calls into).  Each iteration tests the condition, increments
the counter, breaks once it exceeds the ceiling 100, otherwise runs the body
and repeats.  The counter strictly increases, so 101 fuel credits always
suffice; `runGuardedLoop` starts the loop the way the injected code does,
with the counter at 0. -/

def guardedLoopRun {σ : Type} (cond : σ → Bool) (body : σ → σ) :
    ℕ → ℕ → σ → σ
  | 0, _, s => s
  | fuel + 1, g, s =>
    if cond s then
      if g + 1 > 100 then s
      else guardedLoopRun cond body fuel (g + 1) (body s)
    else s

def runGuardedLoop {σ : Type} (cond : σ → Bool) (body : σ → σ) (s : σ) : σ :=
  guardedLoopRun cond body 101 0 s

/-! ## String utilities shared by the cleaner and the validator -/

/-- JS `String.prototype.trim` (both ends). -/
def trimRightList (cs : List Char) : List Char := (cs.reverse.dropWhile isJsSpace).reverse

def trimStr (cs : List Char) : List Char := (trimRightList cs).dropWhile isJsSpace

/-- JS `split('\n')`. -/
def splitLines : List Char → List (List Char)
  | [] => [[]]
  | c :: cs =>
    let r := splitLines cs
    if c = '\n' then [] :: r
    else
      match r with
      | [] => [[c]]
      | l :: ls => (c :: l) :: ls

/-- JS `join('\n')`. -/
def joinLines : List (List Char) → List Char
  | [] => []
  | [l] => l
  | l :: ls => l ++ '\n' :: joinLines ls

/-- Number of occurrences of a character (JS `(line.match(/x/g) || []).length`). -/
def countChar (c : Char) (cs : List Char) : ℕ := (cs.filter fun x => x = c).length

/-- JS `String.prototype.includes` for a fixed pattern. -/
def containsSub (pat : List Char) : List Char → Bool
  | [] => pat.isPrefixOf []
  | c :: rest => pat.isPrefixOf (c :: rest) || containsSub pat rest

/-- Drop an exact (case-sensitive) literal from the front, or fail. -/
def dropExact (w : List Char) (cs : List Char) : Option (List Char) :=
  match w, cs with
  | [], rest => some rest
  | _ :: _, [] => none
  | a :: ws, c :: rest => if c = a then dropExact ws rest else none

/-- Drop a literal from the front case-insensitively (`w` given lowercase),
for the case-insensitive regexes of the cleaner. -/
def dropCaseInsensitive (w : List Char) (cs : List Char) : Option (List Char) :=
  match w, cs with
  | [], rest => some rest
  | _ :: _, [] => none
  | a :: ws, c :: rest => if c.toLower = a then dropCaseInsensitive ws rest else none

/-- JS regex word boundary after a word: next character (if any) not `\w`. -/
def boundaryAfter (cs : List Char) : Bool :=
  match cs with
  | [] => true
  | c :: _ => !isWordChar c

/-! ## Forbidden patterns (CodeValidator FORBIDDEN_PATTERNS)

Every entry of the source's deny-list is one of five lexical shapes; the
matcher below implements exactly those shapes with JS regex `\b`, `\s`, `\w`
semantics (ASCII range). -/

inductive PatKind
  /-- `\bW\s*\(` -/
  | wordParen
  /-- `\bW\b` -/
  | bword
  /-- `\.W\b` -/
  | dotWord
  /-- `\bW\s+` -/
  | wordWs
  /-- `\bnew\s+Function\b` -/
  | newFunction
deriving DecidableEq, Repr

structure ForbiddenPat where
  kind : PatKind
  word : List Char
  /-- The JS regex source text (`pattern.source`), used in the error string. -/
  src : String
deriving DecidableEq, Repr

/-- Does the pattern match starting at the current position, whose preceding
character (if any) is `prev`? -/
def patMatchAt (p : ForbiddenPat) (prev : Option Char) (cs : List Char) : Bool :=
  match p.kind with
  | .wordParen =>
    boundaryBefore prev && p.word.isPrefixOf cs &&
      (match (cs.drop p.word.length).dropWhile isJsSpace with
        | '(' :: _ => true
        | _ => false)
  | .bword =>
    boundaryBefore prev && p.word.isPrefixOf cs && boundaryAfter (cs.drop p.word.length)
  | .dotWord =>
    ('.' :: p.word).isPrefixOf cs && boundaryAfter (cs.drop (p.word.length + 1))
  | .wordWs =>
    boundaryBefore prev && p.word.isPrefixOf cs &&
      (match cs.drop p.word.length with
        | c :: _ => isJsSpace c
        | [] => false)
  | .newFunction =>
    boundaryBefore prev &&
      (match cs with
        | 'n' :: 'e' :: 'w' :: rest =>
          let ws := (rest.takeWhile isJsSpace).length
          decide (0 < ws) &&
            (let rest2 := rest.drop ws
             "Function".data.isPrefixOf rest2 && boundaryAfter (rest2.drop 8))
        | _ => false)

/-- JS `RegExp.prototype.test`: does the pattern match at any position? -/
def patTestFrom (p : ForbiddenPat) : Option Char → List Char → Bool
  | _, [] => false
  | prev, c :: cs => patMatchAt p prev (c :: cs) || patTestFrom p (some c) cs

def patTest (p : ForbiddenPat) (code : List Char) : Bool := patTestFrom p none code

/-- `FORBIDDEN_PATTERNS` from src/llm/CodeValidator.ts, in source order. -/
def FORBIDDEN_PATTERNS : List ForbiddenPat :=
  [⟨.wordParen, "eval".data, "\\beval\\s*\\("⟩,
   ⟨.wordParen, "Function".data, "\\bFunction\\s*\\("⟩,
   ⟨.newFunction, [], "\\bnew\\s+Function\\b"⟩,
   ⟨.wordParen, "import".data, "\\bimport\\s*\\("⟩,
   ⟨.wordWs, "import".data, "\\bimport\\s+"⟩,
   ⟨.wordParen, "require".data, "\\brequire\\s*\\("⟩,
   ⟨.wordParen, "fetch".data, "\\bfetch\\s*\\("⟩,
   ⟨.bword, "XMLHttpRequest".data, "\\bXMLHttpRequest\\b"⟩,
   ⟨.bword, "WebSocket".data, "\\bWebSocket\\b"⟩,
   ⟨.bword, "window".data, "\\bwindow\\b"⟩,
   ⟨.bword, "document".data, "\\bdocument\\b"⟩,
   ⟨.bword, "global".data, "\\bglobal\\b"⟩,
   ⟨.bword, "process".data, "\\bprocess\\b"⟩,
   ⟨.bword, "__dirname".data, "\\b__dirname\\b"⟩,
   ⟨.bword, "__filename".data, "\\b__filename\\b"⟩,
   ⟨.bword, "setTimeout".data, "\\bsetTimeout\\b"⟩,
   ⟨.bword, "setInterval".data, "\\bsetInterval\\b"⟩,
   ⟨.bword, "setImmediate".data, "\\bsetImmediate\\b"⟩,
   ⟨.bword, "requestAnimationFrame".data, "\\brequestAnimationFrame\\b"⟩,
   ⟨.bword, "localStorage".data, "\\blocalStorage\\b"⟩,
   ⟨.bword, "sessionStorage".data, "\\bsessionStorage\\b"⟩,
   ⟨.bword, "indexedDB".data, "\\bindexedDB\\b"⟩,
   ⟨.bword, "navigator".data, "\\bnavigator\\b"⟩,
   ⟨.bword, "location".data, "\\blocation\\b"⟩,
   ⟨.bword, "history".data, "\\bhistory\\b"⟩,
   ⟨.bword, "alert".data, "\\balert\\b"⟩,
   ⟨.bword, "confirm".data, "\\bconfirm\\b"⟩,
   ⟨.bword, "prompt".data, "\\bprompt\\b"⟩,
   ⟨.dotWord, "constructor".data, "\\.constructor\\b"⟩,
   ⟨.dotWord, "__proto__".data, "\\.__proto__\\b"⟩,
   ⟨.bword, "prototype".data, "\\bprototype\\b"⟩,
   ⟨.bword, "this".data, "\\bthis\\b"⟩]

/-- `CodeValidator.checkForbiddenPatterns`: one error naming the offending
pattern per matching deny-list entry, accumulated in list order. -/
def checkForbiddenPatterns (code : List Char) : List String :=
  (FORBIDDEN_PATTERNS.filter fun p => patTest p code).map
    fun p => "Forbidden pattern detected: " ++ p.src

/-! ## Allowed tank methods and the advisory scan -/

def ALLOWED_TANK_METHODS : List String :=
  ["getPosition", "getHealth", "getHeading", "getTurretHeading", "canFire",
   "getNearestEnemy", "getEnemies", "configureSensors", "getSensorCount",
   "getSensorConstraints", "scan", "scanAll", "getGunRange", "getArenaBounds",
   "isCollidingWithWall", "getWallCollisionSides", "getWallDistance", "scanWall",
   "move", "turn", "aimAt", "fire", "angleTo", "distanceTo"]

/-- One match attempt of `/tank\.(\w+)\s*\(/g` at the current position:
the captured method name and the match length. -/
def tankCallAt (cs : List Char) : Option (List Char × ℕ) :=
  if "tank.".data.isPrefixOf cs then
    let rest := cs.drop 5
    let name := rest.takeWhile isWordChar
    if name.length = 0 then none
    else
      let rest2 := rest.drop name.length
      let ws := (rest2.takeWhile isJsSpace).length
      match rest2.drop ws with
      | '(' :: _ => some (name, 5 + name.length + ws + 1)
      | _ => none
  else none

/-- All captures of `code.matchAll(/tank\.(\w+)\s*\(/g)` in order
(non-overlapping, continuing after each match). -/
def tankCallsF : ℕ → List Char → List (List Char)
  | 0, _ => []
  | fuel + 1, cs =>
    match tankCallAt cs with
    | some nk => nk.1 :: tankCallsF fuel (cs.drop nk.2)
    | none =>
      match cs with
      | [] => []
      | _ :: cs' => tankCallsF fuel cs'

/-- `CodeValidator.validateTankMethods`: a warning per `tank.<name>(` call
whose name is not in the allow-list. -/
def validateTankMethods (code : List Char) : List String :=
  ((tankCallsF (code.length + 1) code).filter
    fun name => !(ALLOWED_TANK_METHODS.contains (String.mk name))).map
    fun name => "Unknown tank method: tank." ++ String.mk name ++ "()"

/-! ## The code cleaner (CodeValidator.cleanCode) -/

/-- `/^```(?:javascript|js|typescript|ts)?\n?/gi` (anchored, so at most one
match, at the very start). -/
def stripLeadFence (cs : List Char) : List Char :=
  match cs with
  | '\x60' :: '\x60' :: '\x60' :: rest =>
    let rest2 :=
      match dropCaseInsensitive "javascript".data rest with
      | some r => r
      | none =>
        match dropCaseInsensitive "js".data rest with
        | some r => r
        | none =>
          match dropCaseInsensitive "typescript".data rest with
          | some r => r
          | none =>
            match dropCaseInsensitive "ts".data rest with
            | some r => r
            | none => rest
    match rest2 with
    | '\n' :: r => r
    | _ => rest2
  | _ => cs

/-- `/\n?```\s*$/gi`: a trailing fence (optionally preceded by a newline,
optionally followed by whitespace) is removed. -/
def stripTrailFence (cs : List Char) : List Char :=
  let r := cs.reverse.dropWhile isJsSpace
  match r with
  | '\x60' :: '\x60' :: '\x60' :: r2 =>
    match r2 with
    | '\n' :: r3 => r3.reverse
    | _ => r2.reverse
  | _ => cs

/-- `/^(?:here'?s?\s+(?:the\s+)?(?:code|solution|implementation)[:\s]*\n?)/i`. -/
def stripHerePrefix (cs : List Char) : List Char :=
  match dropCaseInsensitive "here".data cs with
  | none => cs
  | some r1 =>
    let r2 := match r1 with
      | '\x27' :: r => r
      | _ => r1
    let r3 := match r2 with
      | c :: r => if c.toLower = 's' then r else r2
      | [] => r2
    let ws := (r3.takeWhile isJsSpace).length
    if ws = 0 then cs
    else
      let r4 := r3.drop ws
      let r5 :=
        match dropCaseInsensitive "the".data r4 with
        | some rr =>
          let ws2 := (rr.takeWhile isJsSpace).length
          if ws2 = 0 then r4 else rr.drop ws2
        | none => r4
      let r6opt :=
        match dropCaseInsensitive "code".data r5 with
        | some rr => some rr
        | none =>
          match dropCaseInsensitive "solution".data r5 with
          | some rr => some rr
          | none => dropCaseInsensitive "implementation".data r5
      match r6opt with
      | none => cs
      | some r6 => r6.dropWhile fun c => c = ':' || isJsSpace c

/-- The `while (i < code.length - 1)` search for `*/` inside a block comment:
consumes up to and including the terminator; an unterminated comment stops
with one character left (which the outer scanner then processes), exactly as
the index arithmetic in the source does. -/
def skipBlock : List Char → List Char
  | '*' :: '/' :: rest => rest
  | [c] => [c]
  | [] => []
  | _ :: rest => skipBlock rest

/-- The character scanner of `CodeValidator.stripComments`: tracks whether the
cursor is inside a quoted/template string (honouring escapes) and removes
`//` and `/* */` comments only outside strings.  `fuel` bounds the loop; the
input length plus one is always enough since each step consumes at least one
character. -/
def stripLoop : ℕ → Option Char → Bool → List Char → List Char
  | 0 => fun _ _ _ => []
  | fuel + 1 => fun inStr escaped cs =>
    match cs with
    | [] => []
    | c :: rest =>
      if escaped then c :: stripLoop fuel inStr false rest
      else if inStr.isSome && c = '\x5c' then c :: stripLoop fuel inStr true rest
      else
        match inStr with
        | some q =>
          if c = q then c :: stripLoop fuel none false rest
          else c :: stripLoop fuel (some q) false rest
        | none =>
          if c = '\x22' || c = '\x27' || c = '\x60' then
            c :: stripLoop fuel (some c) false rest
          else if c = '/' then
            match rest with
            | '*' :: rest2 => stripLoop fuel none false (skipBlock rest2)
            | '/' :: _ => stripLoop fuel none false (rest.dropWhile fun x => !(x = '\n'))
            | _ => c :: stripLoop fuel none false rest
          else c :: stripLoop fuel none false rest

/-- `CodeValidator.stripComments`: scan, then drop the now-empty lines and
trim. -/
def stripComments (code : List Char) : List Char :=
  let result := stripLoop (code.length + 1) none false code
  trimStr (joinLines ((splitLines result).filter fun l => !(trimStr l).isEmpty))

/-- The greedy `([\s\S]*)\}\s*$` tail of the unwrap regexes: everything up to
the last `}` that is followed only by whitespace. -/
def bodyUpToLastBrace (cs : List Char) : Option (List Char) :=
  let r := cs.reverse.dropWhile isJsSpace
  match r with
  | '\x7d' :: body => some body.reverse
  | _ => none

/-- `/^(?:async\s+)?function\s+\w*\s*\(\s*tank\s*\)\s*\{([\s\S]*)\}\s*$/`:
the captured function body, or `none`. -/
def funcMatch (cs : List Char) : Option (List Char) :=
  let afterAsync :=
    match dropExact "async".data cs with
    | some r =>
      let ws := (r.takeWhile isJsSpace).length
      if ws = 0 then cs else r.drop ws
    | none => cs
  match dropExact "function".data afterAsync with
  | none => none
  | some r1 =>
    let ws1 := (r1.takeWhile isJsSpace).length
    if ws1 = 0 then none
    else
      let r2 := r1.drop ws1
      let r3 := (r2.drop (r2.takeWhile isWordChar).length).dropWhile isJsSpace
      match r3 with
      | '(' :: r5 =>
        match dropExact "tank".data (r5.dropWhile isJsSpace) with
        | none => none
        | some r7 =>
          match r7.dropWhile isJsSpace with
          | ')' :: r9 =>
            match r9.dropWhile isJsSpace with
            | '\x7b' :: r11 => bodyUpToLastBrace r11
            | _ => none
          | _ => none
      | _ => none

/-- The `\}\s*;?\s*$` tail of the arrow-unwrap regexes. -/
def arrowBody (cs : List Char) : Option (List Char) :=
  let r := cs.reverse.dropWhile isJsSpace
  let r2 := match r with
    | ';' :: rr => rr.dropWhile isJsSpace
    | _ => r
  match r2 with
  | '\x7d' :: body => some body.reverse
  | _ => none

/-- The shared `\(?\s*tank\s*\)?\s*=>\s*\{([\s\S]*)\}\s*;?\s*$` part of the
two arrow-function unwrap regexes. -/
def arrowTail (cs : List Char) : Option (List Char) :=
  let r1 := match cs with
    | '(' :: r => r
    | _ => cs
  match dropExact "tank".data (r1.dropWhile isJsSpace) with
  | none => none
  | some r3 =>
    let r4 := r3.dropWhile isJsSpace
    let r5 := match r4 with
      | ')' :: r => r
      | _ => r4
    match r5.dropWhile isJsSpace with
    | '=' :: '>' :: r7 =>
      match r7.dropWhile isJsSpace with
      | '\x7b' :: r8 => arrowBody r8
      | _ => none
    | _ => none

/-- `/^(?:const|let|var)\s+\w+\s*=\s*\(?\s*tank\s*\)?\s*=>\s*\{([\s\S]*)\}\s*;?\s*$/`. -/
def arrowMatch (cs : List Char) : Option (List Char) :=
  let kwOpt :=
    match dropExact "const".data cs with
    | some r => some r
    | none =>
      match dropExact "let".data cs with
      | some r => some r
      | none => dropExact "var".data cs
  match kwOpt with
  | none => none
  | some r1 =>
    let ws1 := (r1.takeWhile isJsSpace).length
    if ws1 = 0 then none
    else
      let r2 := r1.drop ws1
      let name := r2.takeWhile isWordChar
      if name.length = 0 then none
      else
        match (r2.drop name.length).dropWhile isJsSpace with
        | '=' :: r4 => arrowTail (r4.dropWhile isJsSpace)
        | _ => none

/-- `/^\(?\s*tank\s*\)?\s*=>\s*\{([\s\S]*)\}\s*;?\s*$/`. -/
def pureArrowMatch (cs : List Char) : Option (List Char) := arrowTail cs

/-- "Start of code" heuristic of the trailing-prose scan. -/
def looksLikeCodeStart (tl : List Char) : Bool :=
  containsSub "tank.".data tl ||
  "const ".data.isPrefixOf tl || "let ".data.isPrefixOf tl || "var ".data.isPrefixOf tl ||
  "if ".data.isPrefixOf tl || "if(".data.isPrefixOf tl || "for ".data.isPrefixOf tl ||
  "while ".data.isPrefixOf tl || "return ".data.isPrefixOf tl ||
  "switch ".data.isPrefixOf tl || "try ".data.isPrefixOf tl

/-- `/^[A-Z][a-z].*[.!?]$/` on the trimmed line (JS `.` excludes line
terminators). -/
def isProseLine (tl : List Char) : Bool :=
  match tl with
  | c1 :: c2 :: rest =>
    decide ('A' ≤ c1 ∧ c1 ≤ 'Z') && decide ('a' ≤ c2 ∧ c2 ≤ 'z') &&
      (match rest.getLast? with
        | some cl =>
          (cl = '.' || cl = '!' || cl = '?') &&
            rest.dropLast.all fun c => !(c = '\n' || c = '\r')
        | none => false)
  | _ => false

/-- `lastLine.replace(/\}\s*$/, '')`: remove the final `}` (plus trailing
whitespace) when the line ends with one. -/
def removeTrailBrace (line : List Char) : List Char :=
  let r := line.reverse.dropWhile isJsSpace
  match r with
  | '\x7d' :: rest => rest.reverse
  | _ => line

/-- The trailing-prose scan of `cleanCode`: skip lines until one looks like
code, then collect lines while tracking brace depth; stop (dropping the rest)
at a prose-looking line at depth 0 or when the depth goes negative (the extra
closing brace is stripped from the last collected line, which is dropped
entirely if that leaves it blank). -/
def scanLines : Bool → ℤ → List (List Char) → List (List Char)
  | _, _, [] => []
  | inCode, depth, line :: rest =>
    let tl := trimStr line
    if !inCode && tl.isEmpty then scanLines inCode depth rest
    else
      let inCode2 := inCode || looksLikeCodeStart tl
      if !inCode2 then scanLines inCode2 depth rest
      else
        let depth2 := depth + (countChar '\x7b' line : ℤ) - (countChar '\x7d' line : ℤ)
        if isProseLine tl && !containsSub ['/', '/'] tl && depth2 = 0 then []
        else if depth2 < 0 then
          let fixedLine := trimRightList (removeTrailBrace line)
          if (trimStr fixedLine).isEmpty then [] else [fixedLine]
        else line :: scanLines true depth2 rest

/-- The final `while (result.endsWith('}'))` orphan-brace removal; `fuel`
bounds the loop (the string shrinks at every step). -/
def orphanLoop : ℕ → List Char → List Char
  | 0 => fun r => r
  | fuel + 1 => fun r =>
    match r.getLast? with
    | some c =>
      if c = '\x7d' then
        if countChar '\x7b' r < countChar '\x7d' r then
          orphanLoop fuel (trimStr r.dropLast)
        else r
      else r
    | none => r

/-- The shared-indentation removal at the end of `cleanCode`. -/
def dedent (cs : List Char) : List Char :=
  let lines := splitLines cs
  let nonblank := lines.filter fun l => !(trimStr l).isEmpty
  match nonblank.map fun l => (l.takeWhile isJsSpace).length with
  | [] => cs
  | w :: ws =>
    let m := ws.foldl min w
    if m = 0 then cs
    else joinLines (lines.map fun l => l.drop m)

/-- `CodeValidator.cleanCode`: trim; strip markdown fences; strip a
"here's the code:" boilerplate prefix; strip comments; unwrap a function /
arrow-function wrapper whose sole parameter is `tank`; drop trailing prose by
the line scan; remove orphan trailing braces; dedent; trim. -/
def cleanCode (rawCode : List Char) : List Char :=
  let c1 := trimStr (stripTrailFence (stripLeadFence (trimStr rawCode)))
  let c2 := trimStr (stripHerePrefix c1)
  let c3 := stripComments c2
  let c4 := match funcMatch c3 with
    | some body => trimStr body
    | none => c3
  let c5 := match arrowMatch c4 with
    | some body => trimStr body
    | none => c4
  let c6 := match pureArrowMatch c5 with
    | some body => trimStr body
    | none => c5
  let codeLines := scanLines false 0 (splitLines c6)
  if codeLines.isEmpty then trimStr c6
  else
    let result := trimStr (joinLines codeLines)
    let result2 := orphanLoop (result.length + 1) result
    trimStr (dedent result2)

/-- `CodeValidator.getCleanedCode`. -/
def getCleanedCode (rawCode : List Char) : List Char := cleanCode rawCode

/-! ## The validation pipeline (CodeValidator.validate) -/

structure ValidationResult where
  valid : Bool
  errors : List String
  warnings : List String
deriving DecidableEq, Repr

/-- `CodeValidator.validate`.  The two stages that call into the JS engine —
`validateSyntax` (which parses the cleaned body with `new Function`) and
`testExecution` (which compiles the loop-guarded body and runs it once
against the mock tank) — are external to the repository's own code, so they
are passed in as oracles mapping the cleaned code to `none` (success) or
`some errorMessage`. -/
def validate (syntaxErr : List Char → Option String)
    (execErr : List Char → Option String) (rawCode : List Char) : ValidationResult :=
  let code := cleanCode rawCode
  match syntaxErr code with
  | some e => { valid := false, errors := [e], warnings := [] }
  | none =>
    let errors := checkForbiddenPatterns code
    let warnings := validateTankMethods code
    let errors2 :=
      if errors.length = 0 then
        match execErr code with
        | some e => errors ++ [e]
        | none => errors
      else errors
    { valid := errors2.length = 0, errors := errors2, warnings := warnings }

/-- The eval-call pattern (first entry of the deny-list), used by witnesses. -/
def evalPat : ForbiddenPat := ⟨.wordParen, "eval".data, "\\beval\\s*\\("⟩

/-- A concrete raw generation `tank.move(1); eval(1);` whose cleaned form
matches the dynamic-evaluation pattern. -/
def sampleEvalBody : List Char := "tank.move(1); eval(1);".data

/-- A concrete raw generation with a nested function wrapper: cleaning it once
unwraps the outer `function outer(tank){...}` but leaves the inner
`function ai(tank){...}` in place; cleaning again unwraps that too. -/
def sampleNestedFn : List Char :=
  "function outer(tank) \x7bfunction ai(tank)\x7btank.move(1);\x7d\x7d".data

/-! ## The capability sandbox (TankBrain.createTankAPI)

Every operation the sandbox exposes is one `ApiCall`; `apiStep` gives its
meaning on the sandbox state (the underlying tank plus the per-tick trace
list `lastTrace`).  The engine-side environment `ApiEnv` carries the enemy
snapshot (`getEnemiesFn`), abstractions of the platform math functions that
only feed display/utility values (`Math.atan2`, `Math.sqrt`, the ray
computation of `Tank.getWallDistance`), and — for the `try { … } catch`
wrapped around every operation's body — a flag telling whether the
underlying engine object throws while fulfilling this particular call. -/

structure PointQ where
  x : ℚ
  y : ℚ
deriving DecidableEq, Repr

inductive TraceType
  | sensor
  | action
  | utility
  | config
deriving DecidableEq, Repr

/-- `TraceEntry` from src/sandbox/TankBrain.ts. -/
structure TraceEntry where
  method : String
  type : TraceType
  args : Option String := none
  result : Option String := none
deriving DecidableEq, Repr

/-- Display rendering of a number for the trace; stands in for JS
`toFixed(0)` (display-only, never branched on). -/
def formatNum (q : ℚ) : String := toString ⌊q⌋

/-- `TankBrain.formatValue` on a point. -/
def formatPoint (p : PointQ) : String :=
  "\x7bx:" ++ formatNum p.x ++ ", y:" ++ formatNum p.y ++ "\x7d"

def formatEnemyOpt : Option EnemyInfo → String
  | none => "null"
  | some e => "dist:" ++ formatNum e.distance

/-- One script-issued call on the sandboxed `TankAPI`, with its argument.
`aimAt`/`angleTo`/`distanceTo` take `Option PointQ`: `none` models a falsy or
malformed point (failing the source's `point && typeof point.x === 'number'`
style guards). -/
inductive ApiCall
  | getPosition
  | getHealth
  | getHeading
  | getTurretHeading
  | canFire
  | getNearestEnemy
  | getEnemies
  | configureSensors (configs : List SensorConfig)
  | getSensorCount
  | scan (sensorIndex : ℕ)
  | scanAll
  | getGunRange
  | getSensorConstraints
  | getArenaBounds
  | isCollidingWithWall
  | getWallCollisionSides
  | getWallDistance (angleOffset : ℚ)
  | scanWall (sensorIndex : ℕ)
  | move (speed : ℚ)
  | turn (rate : ℚ)
  | aimAt (point : Option PointQ)
  | fire
  | angleTo (point : Option PointQ)
  | distanceTo (point : Option PointQ)
deriving DecidableEq, Repr

/-- Results of the sandbox operations (the scripts are dynamically typed). -/
inductive ApiValue
  | pt (p : PointQ)
  | num (q : ℚ)
  | bool (b : Bool)
  | enemyOpt (e : Option EnemyInfo)
  | enemyList (l : List EnemyInfo)
  | constraints (c : SensorConstraints)
  | bounds (w h : ℚ)
  | sides (s : List String)
  | wallOpt (w : Option (ℚ × ℚ))
  | unit
deriving DecidableEq, Repr

structure ApiEnv where
  enemies : List EnemyInfo
  atan2Deg : ℚ → ℚ → ℚ
  sqrtQ : ℚ → ℚ
  wallDistance : ℚ → ℚ
  throws : ApiCall → Bool

structure SandboxState where
  tank : TankState
  trace : List TraceEntry
deriving Repr

/-- Append one entry to the per-tick trace (`TankBrain.trace`). -/
def pushTrace (st : SandboxState) (e : TraceEntry) : SandboxState :=
  { st with trace := st.trace ++ [e] }

/-- Which calls append a trace entry when the underlying call succeeds:
all of them except `getSensorConstraints` and `getArenaBounds` (whose arms in
the source return without tracing), and the three point-taking utilities when
handed a malformed point (their guard returns before the trace line). -/
def expectTrace (env : ApiEnv) (c : ApiCall) : Bool :=
  (match c with
    | .getSensorConstraints => false
    | .getArenaBounds => false
    | .aimAt p => p.isSome
    | .angleTo p => p.isSome
    | .distanceTo p => p.isSome
    | _ => true) && !env.throws c

/-- One sandbox API call (`TankBrain.createTankAPI`): each arm mirrors the
corresponding closure — do the underlying work inside `try` (modelled by the
`env.throws` flag: a throw skips both the effect and the trace and produces
the arm's safe default), append one trace entry on success, and return the
result. -/
def apiStep (env : ApiEnv) (c : ApiCall) (st : SandboxState) : SandboxState × ApiValue :=
  match c with
  | .getPosition =>
    if env.throws c then (st, .pt ⟨0, 0⟩)
    else
      let r : PointQ := ⟨st.tank.x, st.tank.y⟩
      (pushTrace st ⟨"getPosition()", .sensor, none, some (formatPoint r)⟩, .pt r)
  | .getHealth =>
    if env.throws c then (st, .num 0)
    else
      (pushTrace st ⟨"getHealth()", .sensor, none, some (toString ⌊st.tank.health⌋)⟩,
        .num st.tank.health)
  | .getHeading =>
    if env.throws c then (st, .num 0)
    else
      (pushTrace st ⟨"getHeading()", .sensor, none, some (formatNum st.tank.headingDeg ++ "°")⟩,
        .num st.tank.headingDeg)
  | .getTurretHeading =>
    if env.throws c then (st, .num 0)
    else
      (pushTrace st
        ⟨"getTurretHeading()", .sensor, none, some (formatNum st.tank.turretHeadingDeg ++ "°")⟩,
        .num st.tank.turretHeadingDeg)
  | .canFire =>
    if env.throws c then (st, .bool false)
    else
      (pushTrace st
        ⟨"canFire()", .sensor, none, some (if st.tank.fireReady then "YES" else "NO")⟩,
        .bool st.tank.fireReady)
  | .getNearestEnemy =>
    if env.throws c then (st, .enemyOpt none)
    else
      let r := getNearestEnemy st.tank env.enemies
      (pushTrace st ⟨"getNearestEnemy()", .sensor, none, some (formatEnemyOpt r)⟩, .enemyOpt r)
  | .getEnemies =>
    if env.throws c then (st, .enemyList [])
    else
      (pushTrace st
        ⟨"getEnemies()", .sensor, none, some ("[" ++ toString env.enemies.length ++ "]")⟩,
        .enemyList env.enemies)
  | .configureSensors configs =>
    if env.throws c then (st, .bool false)
    else
      let r := configureSensors st.tank configs
      (pushTrace { st with tank := r.2 }
        ⟨"configureSensors()", .config, some ("[" ++ toString configs.length ++ " sensors]"),
          some (if r.1 then "OK" else "FAIL")⟩,
        .bool r.1)
  | .getSensorCount =>
    if env.throws c then (st, .num 0)
    else
      (pushTrace st ⟨"getSensorCount()", .sensor, none, some (toString st.tank.sensors.length)⟩,
        .num st.tank.sensors.length)
  | .scan sensorIndex =>
    if env.throws c then (st, .enemyList [])
    else
      let r := sortByDistance (env.enemies.filter fun e =>
        isPointInSensorIndex st.tank e.bearingDeg e.posDist sensorIndex)
      (pushTrace st
        ⟨"scan(" ++ toString sensorIndex ++ ")", .sensor, none,
          some ("[" ++ toString r.length ++ "]")⟩,
        .enemyList r)
  | .scanAll =>
    if env.throws c then (st, .enemyList [])
    else
      let r := sortByDistance (env.enemies.filter fun e =>
        isPointDetectable st.tank e.bearingDeg e.posDist)
      (pushTrace st ⟨"scanAll()", .sensor, none, some ("[" ++ toString r.length ++ "]")⟩,
        .enemyList r)
  | .getGunRange =>
    if env.throws c then (st, .num 350)
    else
      (pushTrace st ⟨"getGunRange()", .sensor, none, some (toString ⌊st.tank.gunRange⌋)⟩,
        .num st.tank.gunRange)
  | .getSensorConstraints =>
    -- the source returns `{ ...SENSOR_CONSTRAINTS }` directly: no try, no trace
    (st, .constraints SENSOR_CONSTRAINTS)
  | .getArenaBounds =>
    -- try/catch, but no trace on either path
    if env.throws c then (st, .bounds 1200 800)
    else (st, .bounds st.tank.arenaWidth st.tank.arenaHeight)
  | .isCollidingWithWall =>
    if env.throws c then (st, .bool false)
    else
      (pushTrace st ⟨"isCollidingWithWall()", .sensor, none, some "NO"⟩, .bool false)
  | .getWallCollisionSides =>
    if env.throws c then (st, .sides [])
    else
      (pushTrace st ⟨"getWallCollisionSides()", .sensor, none, some "none"⟩, .sides [])
  | .getWallDistance angleOffset =>
    if env.throws c then (st, .num 0)
    else
      let r := env.wallDistance angleOffset
      (pushTrace st
        ⟨"getWallDistance()", .sensor, some (formatNum angleOffset ++ "°"), some (formatNum r)⟩,
        .num r)
  | .scanWall sensorIndex =>
    if env.throws c then (st, .wallOpt none)
    else
      let r : Option (ℚ × ℚ) :=
        match st.tank.sensors.get? sensorIndex with
        | none => none
        | some s =>
          let d := env.wallDistance s.offset
          if d ≤ s.range then some (d, st.tank.headingDeg + s.offset) else none
      (pushTrace st
        ⟨"scanWall(" ++ toString sensorIndex ++ ")", .sensor, none,
          some (match r with | none => "null" | some dr => "dist:" ++ formatNum dr.1)⟩,
        .wallOpt r)
  | .move speed =>
    if env.throws c then (st, .unit)
    else
      (pushTrace { st with tank := { st.tank with moveInput := clampQ speed (-1) 1 } }
        ⟨"move()", .action, some (formatNum speed), none⟩, .unit)
  | .turn rate =>
    if env.throws c then (st, .unit)
    else
      (pushTrace { st with tank := { st.tank with turnInput := clampQ rate (-1) 1 } }
        ⟨"turn()", .action, some (formatNum rate), none⟩, .unit)
  | .aimAt point =>
    if env.throws c then (st, .unit)
    else
      match point with
      | none => (st, .unit)
      | some p =>
        (pushTrace
          { st with tank :=
              { st.tank with targetAimDeg := env.atan2Deg (p.y - st.tank.y) (p.x - st.tank.x) } }
          ⟨"aimAt()", .action, some (formatPoint p), none⟩, .unit)
  | .fire =>
    if env.throws c then (st, .bool false)
    else
      if st.tank.fireReady then
        (pushTrace { st with tank := { st.tank with wantsFire := true, fireReady := false } }
          ⟨"fire()", .action, none, some "FIRED!"⟩, .bool true)
      else
        (pushTrace st ⟨"fire()", .action, none, some "cooling"⟩, .bool false)
  | .angleTo point =>
    if env.throws c then (st, .num 0)
    else
      match point with
      | none => (st, .num 0)
      | some p =>
        let r := env.atan2Deg (p.y - st.tank.y) (p.x - st.tank.x)
        (pushTrace st
          ⟨"angleTo()", .utility, some (formatPoint p), some (formatNum r ++ "°")⟩, .num r)
  | .distanceTo point =>
    if env.throws c then (st, .num 0)
    else
      match point with
      | none => (st, .num 0)
      | some p =>
        let dx := p.x - st.tank.x
        let dy := p.y - st.tank.y
        let r := env.sqrtQ (dx * dx + dy * dy)
        (pushTrace st
          ⟨"distanceTo()", .utility, some (formatPoint p), some (formatNum r)⟩, .num r)

/-! ## The script execution unit (TankBrain.execute) and the tick loop -/

/-- The meaning of one compiled script for one tick: from the fresh sandbox
input (agent state and trace) to the final sandbox state plus the exception
the callable escaped with, if any (side effects made through the capability
API before a throw persist, as in JS). -/
def Script (σ : Type) : Type := σ × List TraceEntry → (σ × List TraceEntry) × Option String

structure BrainState (σ : Type) where
  compiled : Option (Script σ)
  active : Bool
  dead : Bool
  agent : σ
  lastTrace : List TraceEntry

/-- `TankBrain.execute`: a no-op without a compiled callable or when the
bound tank is inactive or dead; otherwise clear the trace, invoke the
compiled callable exactly once on the fresh sandbox, and keep its effects;
the `catch` swallows (logs only) any exception, which therefore does not
appear in the result. -/
def executeStep {σ : Type} (b : BrainState σ) : BrainState σ :=
  match b.compiled with
  | none => b
  | some f =>
    if !b.active || b.dead then b
    else
      let r := f (b.agent, [])
      { b with agent := r.1.1, lastTrace := r.1.2 }

/-- The exception that escaped the compiled callable during `execute` (what
the source's `catch` logs); made explicit so a claim can state that it never
influences the loop. -/
def executeThrown {σ : Type} (b : BrainState σ) : Option String :=
  match b.compiled with
  | none => none
  | some f => if !b.active || b.dead then none else (f (b.agent, [])).2

/-- The per-tick brain loop of `BattleScene.update`: each active tank's brain
executes in sequence within the tick. -/
def tickLoop {σ : Type} (bs : List (BrainState σ)) : List (BrainState σ) :=
  bs.map executeStep

/-! ## The generation orchestrator (LLMService.generateWithAutoRetry) -/

/-- `GenerationResult` restricted to the fields the retry loop reads;
`behaviorCode` models `result.behavior?.code`. -/
structure GenerationResult where
  success : Bool
  error : Option String := none
  rawResponse : Option String := none
  behaviorCode : Option String := none
deriving DecidableEq, Repr

/-- JS truthiness of an optional string (empty strings are falsy). -/
def truthyStr : Option String → Option String
  | some s => if s.isEmpty then none else some s
  | none => none

/-- JS template interpolation of a possibly-undefined value. -/
def renderOptStr : Option String → String
  | none => "undefined"
  | some s => s

/-- The `for (let i = 0; i < maxRetries && !result.success; i++)` loop of
`generateWithAutoRetry`: `regen` is `regenerateWithFeedback` as a function of
its three arguments (the backend behind it is external).  Returns the final
result together with the number of regeneration calls made. -/
def autoRetryLoop (regen : String → String → String → GenerationResult) (strategy : String) :
    ℕ → GenerationResult → String → GenerationResult × ℕ
  | 0 => fun result _ => (result, 0)
  | fuel + 1 => fun result lastCode =>
    if result.success then (result, 0)
    else if lastCode.isEmpty then (result, 0)
    else
      let r := regen strategy lastCode ((truthyStr result.error).getD "Unknown error")
      let lastCode2 :=
        match truthyStr r.behaviorCode with
        | some s => s
        | none =>
          match truthyStr r.rawResponse with
          | some s => s
          | none => lastCode
      let q := autoRetryLoop regen strategy fuel r lastCode2
      (q.1, q.2 + 1)

/-- `LLMService.generateWithAutoRetry`: run `generateBehavior` once (its
result `first` is an input, the backend being external), loop while
unsuccessful, and on final failure report an error naming the retry budget
and the last underlying error.  Returns the result together with the number
of regeneration calls made. -/
def generateWithAutoRetry (regen : String → String → String → GenerationResult)
    (strategy : String) (first : GenerationResult) (maxRetries : ℕ) :
    GenerationResult × ℕ :=
  let lastCode0 := (truthyStr first.behaviorCode).getD ((truthyStr first.rawResponse).getD "")
  let lr := autoRetryLoop regen strategy maxRetries first lastCode0
  if !lr.1.success then
    ({ success := false,
       error := some ("Code generation failed after " ++ toString maxRetries
         ++ " attempts. Last error: " ++ renderOptStr lr.1.error),
       rawResponse := lr.1.rawResponse }, lr.2)
  else (lr.1, lr.2)

/-! ## Concrete instances used by witnesses -/

/-- A script that performs one agent effect and then throws, every tick. -/
def sampleThrowScript : Script ℕ := fun s => ((s.1 + 1, s.2), some "boom")

def sampleThrowBrain : BrainState ℕ :=
  { compiled := some sampleThrowScript, active := true, dead := false, agent := 0, lastTrace := [] }

def sampleIdleBrain : BrainState ℕ :=
  { compiled := none, active := true, dead := false, agent := 7, lastTrace := [] }

/-- An engine environment where nothing throws and no enemies exist. -/
def sampleEnv : ApiEnv :=
  { enemies := [], atan2Deg := fun _ _ => 0, sqrtQ := fun _ => 0,
    wallDistance := fun _ => 0, throws := fun _ => false }

def sampleSandbox : SandboxState := { tank := scenarioTank, trace := [] }

/-- A regeneration backend that always returns code failing validation. -/
def sampleRegenFail : String → String → String → GenerationResult :=
  fun _ _ _ => { success := false, error := some "still invalid", rawResponse := some "raw" }

def sampleFirstFail : GenerationResult :=
  { success := false, error := some "invalid code", rawResponse := some "raw0" }

-- ===== THEOREMS =====

/-! ## Angle normalization lemmas -/

theorem wrapHighF_le (n : ℕ) : ∀ x : ℚ, x - 360 * n ≤ 180 → wrapHighF n x ≤ 180 := by
  induction n with
  | zero => intro x h; simpa [wrapHighF] using h
  | succ n ih =>
    intro x h
    rw [wrapHighF]
    split
    · apply ih
      push_cast at h ⊢
      linarith
    · linarith [not_lt.mp (by assumption : ¬ x > 180)]

theorem wrapHigh_le (x : ℚ) : wrapHigh x ≤ 180 := by
  apply wrapHighF_le
  rcases le_or_lt x 180 with h | h
  · have : (0 : ℚ) ≤ 360 * (wrapHighFuel x : ℚ) := by positivity
    linarith
  · have hceil : (181 : ℤ) ≤ ⌈x⌉ := by
      have h1 : (180 : ℚ) < (⌈x⌉ : ℚ) := lt_of_lt_of_le h (Int.le_ceil x)
      have h2 : (180 : ℤ) < ⌈x⌉ := by exact_mod_cast h1
      omega
    have hfuel : (wrapHighFuel x : ℤ) = ⌈x⌉ - 180 := by
      unfold wrapHighFuel
      rw [Int.toNat_of_nonneg] ; omega
    have h1 : x - 180 ≤ ((⌈x⌉ : ℚ) - 180) := by
      have := Int.le_ceil x
      linarith
    have h2 : ((⌈x⌉ : ℚ) - 180) ≤ 360 * ((⌈x⌉ : ℚ) - 180) := by
      have hpos : (1 : ℚ) ≤ ((⌈x⌉ : ℚ) - 180) := by
        have : ((181 : ℤ) : ℚ) ≤ (⌈x⌉ : ℚ) := by exact_mod_cast hceil
        push_cast at this ⊢ ; linarith
      nlinarith
    have h3 : (wrapHighFuel x : ℚ) = (⌈x⌉ : ℚ) - 180 := by
      exact_mod_cast congrArg (fun z : ℤ => (z : ℚ)) hfuel
    rw [h3]; linarith

theorem wrapHighF_cases (n : ℕ) : ∀ x : ℚ, wrapHighF n x = x ∨ wrapHighF n x > -180 := by
  induction n with
  | zero => intro x; left; rfl
  | succ n ih =>
    intro x
    rw [wrapHighF]
    split
    · rcases ih (x - 360) with h | h
      · right; rw [h]; linarith
      · right; exact h
    · left; rfl

theorem wrapHighF_congr (n : ℕ) : ∀ x : ℚ, ∃ k : ℤ, wrapHighF n x = x - 360 * k := by
  induction n with
  | zero => intro x; exact ⟨0, by simp [wrapHighF]⟩
  | succ n ih =>
    intro x
    rw [wrapHighF]
    split
    · obtain ⟨k, hk⟩ := ih (x - 360)
      exact ⟨k + 1, by rw [hk]; push_cast; ring⟩
    · exact ⟨0, by simp⟩

theorem wrapLowF_ge (n : ℕ) : ∀ x : ℚ, -180 ≤ x + 360 * n → -180 ≤ wrapLowF n x := by
  induction n with
  | zero => intro x h; simpa [wrapLowF] using h
  | succ n ih =>
    intro x h
    rw [wrapLowF]
    split
    · apply ih
      push_cast at h ⊢
      linarith
    · linarith [not_lt.mp (by assumption : ¬ x < -180)]

theorem wrapLow_ge (x : ℚ) : -180 ≤ wrapLow x := by
  apply wrapLowF_ge
  rcases le_or_lt (-180 : ℚ) x with h | h
  · have : (0 : ℚ) ≤ 360 * (wrapLowFuel x : ℚ) := by positivity
    linarith
  · have hfloor : ⌊x⌋ ≤ -181 := by
      have hlt : x < -180 := h
      have : ⌊x⌋ < -180 := by
        have h1 : (⌊x⌋ : ℚ) ≤ x := Int.floor_le x
        have : (⌊x⌋ : ℚ) < -180 := lt_of_le_of_lt h1 hlt
        exact_mod_cast this
      omega
    have hfuel : (wrapLowFuel x : ℤ) = -⌊x⌋ - 180 := by
      unfold wrapLowFuel
      rw [Int.toNat_of_nonneg] ; omega
    have h3 : (wrapLowFuel x : ℚ) = -(⌊x⌋ : ℚ) - 180 := by
      exact_mod_cast congrArg (fun z : ℤ => (z : ℚ)) hfuel
    rw [h3]
    have h1 : (⌊x⌋ : ℚ) ≤ x := Int.floor_le x
    have h4 : x - (⌊x⌋ : ℚ) < 1 := by
      have := Int.lt_floor_add_one x
      linarith
    have hlow : (1 : ℚ) ≤ -(⌊x⌋ : ℚ) - 180 := by
      have : ((⌊x⌋ : ℤ) : ℚ) ≤ ((-181 : ℤ) : ℚ) := by exact_mod_cast hfloor
      push_cast at this ⊢ ; linarith
    nlinarith

theorem wrapLowF_cases (n : ℕ) : ∀ x : ℚ, wrapLowF n x = x ∨ wrapLowF n x < 180 := by
  induction n with
  | zero => intro x; left; rfl
  | succ n ih =>
    intro x
    rw [wrapLowF]
    split
    · rcases ih (x + 360) with h | h
      · right; rw [h]; linarith
      · right; exact h
    · left; rfl

theorem wrapLowF_congr (n : ℕ) : ∀ x : ℚ, ∃ k : ℤ, wrapLowF n x = x + 360 * k := by
  induction n with
  | zero => intro x; exact ⟨0, by simp [wrapLowF]⟩
  | succ n ih =>
    intro x
    rw [wrapLowF]
    split
    · obtain ⟨k, hk⟩ := ih (x + 360)
      exact ⟨k + 1, by rw [hk]; push_cast; ring⟩
    · exact ⟨0, by simp⟩

theorem normalizeAngleDiff_le (x : ℚ) : normalizeAngleDiff x ≤ 180 := by
  unfold normalizeAngleDiff wrapLow
  rcases wrapLowF_cases (wrapLowFuel (wrapHigh x)) (wrapHigh x) with h | h
  · rw [h]; exact wrapHigh_le x
  · linarith

theorem normalizeAngleDiff_ge (x : ℚ) : -180 ≤ normalizeAngleDiff x :=
  wrapLow_ge (wrapHigh x)

theorem normalizeAngleDiff_congr (x : ℚ) : ∃ k : ℤ, normalizeAngleDiff x = x + 360 * k := by
  unfold normalizeAngleDiff wrapLow wrapHigh
  obtain ⟨k₁, hk₁⟩ := wrapHighF_congr (wrapHighFuel x) x
  obtain ⟨k₂, hk₂⟩ := wrapLowF_congr (wrapLowFuel (wrapHighF (wrapHighFuel x) x)) (wrapHighF (wrapHighFuel x) x)
  refine ⟨k₂ - k₁, ?_⟩
  rw [hk₂, hk₁]
  push_cast
  ring

theorem specNormalize_le (x : ℚ) : specNormalize x ≤ 180 := by
  unfold specNormalize
  have h := Int.le_ceil ((x - 180) / 360)
  have : x - 180 ≤ 360 * (⌈(x - 180) / 360⌉ : ℚ) := by
    rw [div_le_iff₀ (by norm_num : (0:ℚ) < 360)] at h
    linarith
  linarith

theorem specNormalize_gt (x : ℚ) : -180 < specNormalize x := by
  unfold specNormalize
  have h := Int.ceil_lt_add_one ((x - 180) / 360)
  have : 360 * (⌈(x - 180) / 360⌉ : ℚ) < x - 180 + 360 := by
    have h2 : (⌈(x - 180) / 360⌉ : ℚ) < (x - 180) / 360 + 1 := h
    nlinarith
  linarith

/-- The source's loop-based normalization and the spec's `(-180, 180]` formula
agree up to absolute value (they can differ only at the boundary, where the
loops may return `-180` and the formula returns `180`). -/
theorem abs_normalizeAngleDiff_eq (x : ℚ) : |normalizeAngleDiff x| = |specNormalize x| := by
  obtain ⟨k, hk⟩ := normalizeAngleDiff_congr x
  have ha1 := normalizeAngleDiff_le x
  have ha2 := normalizeAngleDiff_ge x
  have hb1 := specNormalize_le x
  have hb2 := specNormalize_gt x
  set a := normalizeAngleDiff x with ha
  set b := specNormalize x with hb
  have hcongr : a - b = 360 * (k + ⌈(x - 180) / 360⌉ : ℤ) := by
    rw [hk, hb]
    unfold specNormalize
    push_cast
    ring
  set m : ℤ := k + ⌈(x - 180) / 360⌉ with hm
  have hrange : -360 ≤ (360 : ℚ) * m ∧ (360 : ℚ) * m < 360 := by
    constructor <;> [linarith [hcongr ▸ (by linarith : (-360 : ℚ) ≤ a - b)] ;
      linarith [hcongr ▸ (by linarith : a - b < 360)]]
  have hm0 : m = 0 ∨ m = -1 := by
    have h1 : (-360 : ℚ) ≤ 360 * m := hrange.1
    have h2 : (360 : ℚ) * m < 360 := hrange.2
    have hm1 : (-1 : ℤ) ≤ m := by
      by_contra hcon
      push_neg at hcon
      have hm2' : m ≤ -2 := by omega
      have hq : ((m : ℚ)) ≤ -2 := by exact_mod_cast hm2'
      linarith
    have hm2 : m < 1 := by
      by_contra hcon
      push_neg at hcon
      have hq : (1 : ℚ) ≤ (m : ℚ) := by exact_mod_cast hcon
      linarith
    omega
  rcases hm0 with h | h
  · have : a = b := by
      have : a - b = 0 := by rw [hcongr, h]; norm_num
      linarith
    rw [this]
  · have hab : a - b = -360 := by rw [hcongr, h]; norm_num
    have ha' : a = -180 := by linarith
    have hb' : b = 180 := by linarith
    rw [ha', hb']
    norm_num

/-! ## configureSensors helper lemmas -/

theorem configureSensors_reject (t : TankState) (configs : List SensorConfig)
    (h : configs.length = 0 ∨ 8 < configs.length) :
    configureSensors t configs = (false, t) := by
  unfold configureSensors
  rcases h with h | h
  · simp [h]
  · have h8 : decide (configs.length > SENSOR_CONSTRAINTS.maxSensors) = true := by
      simp only [SENSOR_CONSTRAINTS, decide_eq_true_eq]
      exact h
    simp [h8]

theorem configureSensors_accept (t : TankState) (configs : List SensorConfig)
    (h1 : configs.length ≠ 0) (h8 : configs.length ≤ 8) :
    configureSensors t configs = (true, { t with sensors := configs.map clampSensor }) := by
  unfold configureSensors
  have hgt : decide (configs.length > SENSOR_CONSTRAINTS.maxSensors) = false := by
    simp only [SENSOR_CONSTRAINTS, decide_eq_false_iff_not, not_lt]
    exact h8
  simp [h1, hgt]

theorem clampSensor_bounds (c : SensorConfig) :
    10 ≤ (clampSensor c).arc ∧ (clampSensor c).arc ≤ 120 ∧
    50 ≤ (clampSensor c).range ∧ (clampSensor c).range ≤ 400 := by
  unfold clampSensor clampQ SENSOR_CONSTRAINTS
  refine ⟨le_max_left _ _, max_le (by norm_num) (min_le_left _ _),
    le_max_left _ _, max_le (by norm_num) (min_le_left _ _)⟩

/-! ## Claim theorems: sensors -/

/-- C6: cone membership holds iff the target's distance is within the sensor's
range (checked first) and the absolute signed angular difference between the
bearing to the target and the sensor's absolute center bearing (observer
heading + sensor offset), normalized into `(-180°, 180°]`, is at most half the
sensor's arc; in particular with one sensor `{arc: 90, range: 400, offset: 0}`
at heading 0°, a target at bearing 95° distance 100 is not a member, at
bearing 40° distance 399 is a member, and at distance 401 is not. -/
theorem claim_C6_sensor_cone_membership :
    (∀ (s : SensorConfig) (heading bearing dist : ℚ),
      sensorConeTest s heading bearing dist =
        (decide (dist ≤ s.range) &&
          decide (|specNormalize (bearing - (heading + s.offset))| ≤ s.arc / 2)))
    ∧ isPointInSensorIndex scenarioTank 95 100 0 = false
    ∧ isPointInSensorIndex scenarioTank 40 399 0 = true
    ∧ isPointInSensorIndex scenarioTank 40 401 0 = false := by
  have huniv : ∀ (s : SensorConfig) (heading bearing dist : ℚ),
      sensorConeTest s heading bearing dist =
        (decide (dist ≤ s.range) &&
          decide (|specNormalize (bearing - (heading + s.offset))| ≤ s.arc / 2)) := by
    intro s heading bearing dist
    by_cases hgt : dist > s.range
    · have h1 : sensorConeTest s heading bearing dist = false := by
        unfold sensorConeTest
        rw [if_pos hgt]
      rw [h1, decide_eq_false (not_le.mpr hgt)]
      simp
    · have h1 : sensorConeTest s heading bearing dist =
          decide (|normalizeAngleDiff (bearing - (heading + s.offset))| ≤ s.arc / 2) := by
        unfold sensorConeTest
        rw [if_neg hgt]
      rw [h1, decide_eq_true (not_lt.mp hgt), Bool.true_and, abs_normalizeAngleDiff_eq]
  refine ⟨huniv, ?_, ?_, ?_⟩
  · show sensorConeTest ⟨90, 400, 0⟩ 0 95 100 = false
    rw [huniv]
    have hc : (⌈(-(17/72) : ℚ)⌉ : ℤ) = 0 := by
      have hm : (-(17/72) : ℚ) ∈ Set.Ioc (-1 : ℚ) 0 := by
        simp only [Set.mem_Ioc]
        norm_num
      simpa [Int.ceil_eq_zero_iff] using hm
    norm_num [specNormalize, hc]
  · show sensorConeTest ⟨90, 400, 0⟩ 0 40 399 = true
    rw [huniv]
    have hc : (⌈(-(7/18) : ℚ)⌉ : ℤ) = 0 := by
      have hm : (-(7/18) : ℚ) ∈ Set.Ioc (-1 : ℚ) 0 := by
        simp only [Set.mem_Ioc]
        norm_num
      simpa [Int.ceil_eq_zero_iff] using hm
    norm_num [specNormalize, hc]
  · show sensorConeTest ⟨90, 400, 0⟩ 0 40 401 = false
    rw [huniv]
    norm_num [specNormalize]

/-- C4: `configureSensors` is atomic: a call with 0 entries or more than 8
entries returns failure and leaves the tank (in particular its sensor list)
completely unchanged, while a call with 1 to 8 entries returns success and
replaces the sensor list in full. -/
theorem claim_C4_configureSensors_atomic (t : TankState) (configs : List SensorConfig) :
    ((configs.length = 0 ∨ 8 < configs.length) → configureSensors t configs = (false, t))
    ∧ (1 ≤ configs.length → configs.length ≤ 8 →
        configureSensors t configs = (true, { t with sensors := configs.map clampSensor })) := by
  refine ⟨fun h => configureSensors_reject t configs h, fun h1 h8 => ?_⟩
  exact configureSensors_accept t configs (by omega) h8

/-- Witness for C4 at concrete inputs: an empty list and a 9-element list are
rejected without touching the tank; an 8-element list is accepted and replaces
the sensor list wholesale. -/
theorem claim_C4_configureSensors_atomic_witness :
    configureSensors scenarioTank [] = (false, scenarioTank)
    ∧ configureSensors scenarioTank (List.replicate 9 ⟨90, 400, 0⟩) = (false, scenarioTank)
    ∧ configureSensors scenarioTank (List.replicate 8 ⟨90, 400, 0⟩) =
        (true, { scenarioTank with
                  sensors := (List.replicate 8 (⟨90, 400, 0⟩ : SensorConfig)).map clampSensor }) :=
  ⟨(claim_C4_configureSensors_atomic scenarioTank []).1 (Or.inl rfl),
   (claim_C4_configureSensors_atomic scenarioTank _).1 (Or.inr (by decide)),
   (claim_C4_configureSensors_atomic scenarioTank _).2 (by decide) (by decide)⟩

/-- C10: for every configuration list of length 1 to 8, `configureSensors`
always succeeds even when individual arc or range values lie outside the
documented bounds: each stored sensor's arc is clamped into [10, 120] and its
range into [50, 400], while offset is stored unchanged; hence after every
successful call every stored sensor satisfies the arc and range constraints. -/
theorem claim_C10_configureSensors_clamps (t : TankState) (configs : List SensorConfig)
    (h1 : 1 ≤ configs.length) (h8 : configs.length ≤ 8) :
    (configureSensors t configs).1 = true
    ∧ (configureSensors t configs).2.sensors = configs.map clampSensor
    ∧ (∀ s ∈ (configureSensors t configs).2.sensors,
        10 ≤ s.arc ∧ s.arc ≤ 120 ∧ 50 ≤ s.range ∧ s.range ≤ 400)
    ∧ (∀ i : ℕ, ((configureSensors t configs).2.sensors.get? i).map SensorConfig.offset
        = (configs.get? i).map SensorConfig.offset) := by
  have hacc := configureSensors_accept t configs (by omega) h8
  rw [hacc]
  refine ⟨rfl, rfl, ?_, ?_⟩
  · intro s hs
    simp only [List.mem_map] at hs
    obtain ⟨c, _, rfl⟩ := hs
    exact clampSensor_bounds c
  · intro i
    rw [List.get?_map]
    cases configs.get? i <;> rfl

/-- Witness for C10: a single sensor with arc 200 and range 10 is accepted and
stored clamped to arc 120, range 50, with its offset 33 unchanged. -/
theorem claim_C10_configureSensors_clamps_witness :
    (configureSensors scenarioTank [⟨200, 10, 33⟩]).1 = true
    ∧ (configureSensors scenarioTank [⟨200, 10, 33⟩]).2.sensors = [⟨120, 50, 33⟩] :=
  ⟨(claim_C10_configureSensors_clamps scenarioTank [⟨200, 10, 33⟩] (by decide) (by decide)).1,
   ((claim_C10_configureSensors_clamps scenarioTank [⟨200, 10, 33⟩]
      (by decide) (by decide)).2.1).trans (by decide)⟩

/-! ## getNearestEnemy helper lemmas -/

theorem insertByDistance_perm (e : EnemyInfo) (l : List EnemyInfo) :
    List.Perm (insertByDistance e l) (e :: l) := by
  induction l with
  | nil => exact List.Perm.refl _
  | cons f fs ih =>
    rw [insertByDistance]
    split
    · exact (ih.cons f).trans (List.Perm.swap e f fs)
    · exact List.Perm.refl _

theorem sortByDistance_perm (l : List EnemyInfo) : List.Perm (sortByDistance l) l := by
  induction l with
  | nil => exact List.Perm.refl _
  | cons e es ih => exact (insertByDistance_perm e (sortByDistance es)).trans (ih.cons e)

theorem insertByDistance_pairwise (e : EnemyInfo) (l : List EnemyInfo)
    (h : l.Pairwise fun a b => a.distance ≤ b.distance) :
    (insertByDistance e l).Pairwise fun a b => a.distance ≤ b.distance := by
  induction l with
  | nil => simp [insertByDistance]
  | cons f fs ih =>
    rw [List.pairwise_cons] at h
    rw [insertByDistance]
    split
    · rename_i hle
      rw [List.pairwise_cons]
      refine ⟨?_, ih h.2⟩
      intro b hb
      have hb' : b ∈ e :: fs := (insertByDistance_perm e fs).mem_iff.mp hb
      rcases List.mem_cons.mp hb' with rfl | hbfs
      · exact hle
      · exact h.1 b hbfs
    · rename_i hnle
      have hef : e.distance ≤ f.distance := le_of_not_le hnle
      rw [List.pairwise_cons]
      refine ⟨?_, List.pairwise_cons.mpr h⟩
      intro b hb
      rcases List.mem_cons.mp hb with rfl | hbfs
      · exact hef
      · exact hef.trans (h.1 b hbfs)

theorem sortByDistance_pairwise (l : List EnemyInfo) :
    (sortByDistance l).Pairwise fun a b => a.distance ≤ b.distance := by
  induction l with
  | nil => simp [sortByDistance]
  | cons e es ih => exact insertByDistance_pairwise e (sortByDistance es) ih

/-! ## Claim theorem: getNearestEnemy -/

/-- C5: for every observer tank and every enemy snapshot, `getNearestEnemy`
returns `none` exactly when no enemy lies within any of the observer's
configured sensor cones (even if enemies exist outside all cones), and
otherwise returns an enemy that is inside at least one cone and whose
`distance` is minimal among all such enemies. -/
theorem claim_C5_getNearestEnemy (t : TankState) (enemies : List EnemyInfo) :
    (getNearestEnemy t enemies = none ↔
      ∀ e ∈ enemies, isPointDetectable t e.bearingDeg e.posDist = false)
    ∧ ∀ e, getNearestEnemy t enemies = some e →
        (e ∈ enemies ∧ isPointDetectable t e.bearingDeg e.posDist = true) ∧
        ∀ f ∈ enemies, isPointDetectable t f.bearingDeg f.posDist = true →
          e.distance ≤ f.distance := by
  unfold getNearestEnemy
  set detectable := enemies.filter (fun e => isPointDetectable t e.bearingDeg e.posDist)
    with hdet
  have hperm := sortByDistance_perm detectable
  constructor
  · rw [List.head?_eq_none_iff]
    constructor
    · intro hnil e he
      by_contra hne
      have hmem : e ∈ detectable := by
        rw [hdet, List.mem_filter]
        exact ⟨he, by simpa using hne⟩
      have hnil' : detectable = [] := (hnil ▸ hperm.symm).eq_nil
      rw [hnil'] at hmem
      exact absurd hmem (List.not_mem_nil e)
    · intro hall
      have hnil : detectable = [] := by
        rw [hdet, List.filter_eq_nil]
        intro a ha
        simp [hall a ha]
      rw [hnil]
      rfl
  · intro e he
    obtain ⟨rest, hrest⟩ : ∃ rest, sortByDistance detectable = e :: rest := by
      cases hs : sortByDistance detectable with
      | nil => rw [hs] at he; exact absurd he (by simp)
      | cons a tail =>
        rw [hs] at he
        simp only [List.head?_cons, Option.some.injEq] at he
        exact ⟨tail, by rw [he]⟩
    have hmem : e ∈ detectable := hperm.mem_iff.mp (hrest ▸ List.mem_cons_self e rest)
    have hmem' := List.mem_filter.mp (hdet ▸ hmem)
    refine ⟨⟨hmem'.1, by simpa using hmem'.2⟩, ?_⟩
    intro f hf hfdet
    have hfmem : f ∈ sortByDistance detectable := by
      apply hperm.mem_iff.mpr
      rw [hdet, List.mem_filter]
      exact ⟨hf, by simp [hfdet]⟩
    have hpair := sortByDistance_pairwise detectable
    rw [hrest] at hpair hfmem
    rcases List.mem_cons.mp hfmem with rfl | hfrest
    · exact le_refl _
    · exact (List.pairwise_cons.mp hpair).1 f hfrest

/-- Witness for C5: with no enemies at all, `getNearestEnemy` returns `null`. -/
theorem claim_C5_getNearestEnemy_witness :
    getNearestEnemy scenarioTank [] = none :=
  (claim_C5_getNearestEnemy scenarioTank []).1.mpr
    (fun e he => absurd he (List.not_mem_nil e))

/-! ## Loop guard lemmas -/

theorem loopPassF_mono (kw : List Char) (fuel : ℕ) :
    ∀ (prev : Option Char) (cs : List Char) (n : ℕ),
      n ≤ (loopPassF kw fuel prev cs n).2 := by
  induction fuel with
  | zero => intro prev cs n; simp [loopPassF]
  | succ fuel ih =>
    intro prev cs n
    simp only [loopPassF]
    cases hm : loopHeadMatch kw prev cs with
    | some kc =>
      exact le_trans (Nat.le_succ n) (ih (some '\x7b') (cs.drop kc.1) (n + 1))
    | none =>
      cases cs with
      | nil => exact Nat.le_refl n
      | cons c cs' => exact ih (some c) cs' n

/-- At a position where the text continues with the literal `while(true){`
and the word boundary holds, the while-pass matcher fires and captures the
condition `true`. -/
theorem loopHeadMatch_whileTrue (prev : Option Char) (post : List Char)
    (hb : boundaryBefore prev = true) :
    loopHeadMatch whileKw prev (whileTrueHead ++ post)
      = some (12, ['t', 'r', 'u', 'e']) := by
  simp +decide [loopHeadMatch, whileKw, whileTrueHead, hb, List.isPrefixOf,
    List.takeWhile_cons, isJsSpace]

/-- If the scanned text decomposes as `pre ++ while(true){ ++ post` with a
word boundary at the seam (tracked through `prev` when `pre` is empty), the
while-pass injects at least one guard. -/
theorem loopPassF_finds (fuel : ℕ) :
    ∀ (pre post : List Char) (prev : Option Char) (n : ℕ),
      pre.length < fuel →
      (match pre.getLast? with
        | none => boundaryBefore prev
        | some c => !isWordChar c) = true →
      n + 1 ≤ (loopPassF whileKw fuel prev (pre ++ whileTrueHead ++ post) n).2 := by
  induction fuel with
  | zero => intro pre post prev n h; omega
  | succ fuel ih =>
    intro pre post prev n hlen hb
    cases pre with
    | nil =>
      simp only [List.getLast?_nil] at hb
      simp only [loopPassF, List.nil_append]
      rw [loopHeadMatch_whileTrue prev post hb]
      exact loopPassF_mono whileKw fuel (some '\x7b') _ (n + 1)
    | cons c pre' =>
      simp only [loopPassF]
      cases hm : loopHeadMatch whileKw prev (c :: pre' ++ whileTrueHead ++ post) with
      | some kc =>
        exact loopPassF_mono whileKw fuel (some '\x7b') _ (n + 1)
      | none =>
        simp only [List.cons_append]
        apply ih pre' post (some c) n (by simpa using hlen)
        cases hpre' : pre'.getLast? with
        | none =>
          have : pre' = [] := by
            cases pre' with
            | nil => rfl
            | cons d ds => simp [List.getLast?_cons] at hpre'
          subst this
          simp only [List.getLast?_singleton] at hb
          simpa [boundaryBefore] using hb
        | some d =>
          have : (c :: pre').getLast? = some d := by
            cases pre' with
            | nil => simp at hpre'
            | cons e es => rw [List.getLast?_cons_cons, hpre']
          rw [this] at hb
          exact hb

/-- With the condition constantly `true` (a `while(true)` loop), the injected
guard runs the loop body exactly `100 - g` more times when the counter stands
at `g ≤ 100` and then breaks. -/
theorem guardedLoopRun_true {σ : Type} (body : σ → σ) :
    ∀ (fuel g : ℕ) (s : σ), g + fuel = 101 → g ≤ 100 →
      guardedLoopRun (fun _ => true) body fuel g s = body^[100 - g] s := by
  intro fuel
  induction fuel with
  | zero => intro g s hfg hg; omega
  | succ fuel ih =>
    intro g s hfg hg
    rw [guardedLoopRun]
    by_cases hbreak : g + 1 > 100
    · have hg100 : g = 100 := by omega
      subst hg100
      simp [hbreak]
    · have h1 : 100 - g = (100 - (g + 1)) + 1 := by omega
      simp [hbreak, ih (g + 1) (body s) (by omega) (by omega), h1,
        Function.iterate_succ_apply]

/-! ## Claim theorem: loop guards -/

/-- C1: for every script body containing a `while(true){...}` loop, the
output of `injectLoopGuards` carries at least one injected guard, with one
extra `" }"` closer per guarded loop appended at the very end of the body,
and the injected per-loop counter forces a break once it exceeds the fixed
ceiling of 100 iterations: executed against any capability stub (any state
`σ` and any meaning `body` of the loop body over it), the guarded
`while(true)` loop performs exactly 100 body iterations and terminates. -/
theorem claim_C1_loop_guard_termination (code : List Char)
    (h : ∃ pre post, code = pre ++ whileTrueHead ++ post ∧
      (pre = [] ∨ ∃ c, pre.getLast? = some c ∧ isWordChar c = false)) :
    1 ≤ (injectLoopGuardsCore code).2
    ∧ injectLoopGuards code
        = (injectLoopGuardsCore code).1 ++ closeBraces (injectLoopGuardsCore code).2
    ∧ ∀ (σ : Type) (body : σ → σ) (s : σ),
        runGuardedLoop (fun _ => true) body s = body^[100] s := by
  refine ⟨?_, rfl, ?_⟩
  · obtain ⟨pre, post, hcode, hbnd⟩ := h
    subst hcode
    have hseam : (match pre.getLast? with
        | none => boundaryBefore (none : Option Char)
        | some c => !isWordChar c) = true := by
      rcases hbnd with rfl | ⟨c, hc, hw⟩
      · rfl
      · rw [hc]
        show (!isWordChar c) = true
        rw [hw]
        rfl
    have h1 : 1 ≤ (loopPassF whileKw ((pre ++ whileTrueHead ++ post).length + 1) none
        (pre ++ whileTrueHead ++ post) 0).2 :=
      loopPassF_finds ((pre ++ whileTrueHead ++ post).length + 1) pre post none 0
        (by simp only [List.length_append]; omega) hseam
    unfold injectLoopGuardsCore
    exact le_trans h1 (loopPassF_mono forKw _ none _ _)
  · intro σ body s
    unfold runGuardedLoop
    have := guardedLoopRun_true body 101 0 s (by omega) (by omega)
    simpa using this

/-- Witness for C1: the concrete body `while(true){x=x+1;}` decomposes around
its `while(true){` header, and the theorem applies to it. -/
theorem claim_C1_loop_guard_termination_witness :
    (∃ pre post, sampleLoopBody = pre ++ whileTrueHead ++ post ∧
      (pre = [] ∨ ∃ c, pre.getLast? = some c ∧ isWordChar c = false))
    ∧ (1 ≤ (injectLoopGuardsCore sampleLoopBody).2
      ∧ injectLoopGuards sampleLoopBody
          = (injectLoopGuardsCore sampleLoopBody).1
            ++ closeBraces (injectLoopGuardsCore sampleLoopBody).2
      ∧ ∀ (σ : Type) (body : σ → σ) (s : σ),
          runGuardedLoop (fun _ => true) body s = body^[100] s) :=
  ⟨⟨[], ['x', '=', 'x', '+', '1', ';', '\x7d'], rfl, Or.inl rfl⟩,
   claim_C1_loop_guard_termination sampleLoopBody
     ⟨[], ['x', '=', 'x', '+', '1', ';', '\x7d'], rfl, Or.inl rfl⟩⟩

/-! ## Claim theorems: validator and cleaner -/

/-- C2: for every input whose cleaned form matches at least one forbidden
lexical pattern (and passes the syntax stage), `validate` returns
`valid = false`, its errors list is exactly `checkForbiddenPatterns` of the
cleaned code — one error naming the offending pattern per matched deny-list
entry, in order, so all co-occurring matches are reported, not just the
first — and those error strings are pairwise distinct. -/
theorem claim_C2_forbidden_patterns_reported
    (syntaxErr execErr : List Char → Option String) (raw : List Char)
    (hsyn : syntaxErr (cleanCode raw) = none)
    (hmatch : ∃ p ∈ FORBIDDEN_PATTERNS, patTest p (cleanCode raw) = true) :
    (validate syntaxErr execErr raw).valid = false
    ∧ (validate syntaxErr execErr raw).errors = checkForbiddenPatterns (cleanCode raw)
    ∧ (∀ code, checkForbiddenPatterns code
        = (FORBIDDEN_PATTERNS.filter fun p => patTest p code).map
            (fun p => "Forbidden pattern detected: " ++ p.src))
    ∧ (∀ p ∈ FORBIDDEN_PATTERNS, patTest p (cleanCode raw) = true →
        ("Forbidden pattern detected: " ++ p.src) ∈ (validate syntaxErr execErr raw).errors)
    ∧ (validate syntaxErr execErr raw).errors.Nodup := by
  obtain ⟨p0, hp0mem, hp0test⟩ := hmatch
  have hshape : ∀ c, checkForbiddenPatterns c
      = (FORBIDDEN_PATTERNS.filter fun p => patTest p c).map
          (fun p => "Forbidden pattern detected: " ++ p.src) := fun _ => rfl
  set code := cleanCode raw with hcode
  clear_value code
  have hfil : p0 ∈ FORBIDDEN_PATTERNS.filter fun p => patTest p code :=
    List.mem_filter.mpr ⟨hp0mem, hp0test⟩
  have hne : ¬ (checkForbiddenPatterns code).length = 0 := by
    rw [hshape, List.length_map]
    intro hlen
    rw [List.length_eq_zero] at hlen
    rw [hlen] at hfil
    exact absurd hfil (List.not_mem_nil p0)
  have hval : validate syntaxErr execErr raw =
      { valid := false, errors := checkForbiddenPatterns code,
        warnings := validateTankMethods code } := by
    simp only [validate]
    rw [← hcode, hsyn]
    simp only [if_neg hne, decide_eq_false hne]
  have hc1 : (validate syntaxErr execErr raw).valid = false :=
    (congrArg ValidationResult.valid hval).trans rfl
  have hc2 : (validate syntaxErr execErr raw).errors = checkForbiddenPatterns code :=
    (congrArg ValidationResult.errors hval).trans rfl
  refine ⟨hc1, hc2, hshape, ?_, ?_⟩
  · intro p hp htest
    rw [hc2, hshape]
    exact List.mem_map.mpr ⟨p, List.mem_filter.mpr ⟨hp, htest⟩, rfl⟩
  · rw [hc2, hshape]
    have hnodup : (FORBIDDEN_PATTERNS.map
        fun p => "Forbidden pattern detected: " ++ p.src).Nodup := by decide
    exact hnodup.sublist ((List.filter_sublist _).map _)

/-- Witness for C2: `tank.move(1); eval(1);` cleans to itself, matches the
dynamic-evaluation pattern, and fails validation under a syntax oracle that
accepts everything. -/
theorem claim_C2_forbidden_patterns_reported_witness :
    (validate (fun _ => none) (fun _ => none) sampleEvalBody).valid = false :=
  (claim_C2_forbidden_patterns_reported (fun _ => none) (fun _ => none) sampleEvalBody rfl
    ⟨evalPat, by decide, by decide⟩).1

/-- C8 counterexample: cleaning the nested-function input
`function outer(tank) {function ai(tank){tank.move(1);}}` once unwraps only
the outer wrapper (the output still starts with `function ai(tank){`), and a
second cleaning strips the inner wrapper too, so `cleanCode` is not
idempotent at this input. -/
theorem claim_C8_cleanCode_not_idempotent :
    cleanCode (cleanCode sampleNestedFn) ≠ cleanCode sampleNestedFn := by decide

/-- C8 (amended): the cleaner is not idempotent for every string — on inputs
whose cleaned output itself still matches a function-wrapper pattern (e.g.
nested `function name(tank){...}` declarations) a second application cleans
further; on the exhibited input the iteration stabilizes at the third
application. -/
theorem claim_C8_cleanCode_idempotence_amended :
    (∃ s : List Char, cleanCode (cleanCode s) ≠ cleanCode s)
    ∧ cleanCode (cleanCode (cleanCode sampleNestedFn)) = cleanCode (cleanCode sampleNestedFn) :=
  ⟨⟨sampleNestedFn, by decide⟩, by decide⟩

/-! ## Claim theorems: execution isolation, tracing, retry loop -/

/-- C3: any exception thrown by a compiled script during a tick's `execute`
is caught inside `execute` (visible to logging only, never propagated): the
call returns normally carrying the script's pre-throw effects, and for a
script that throws on every invocation the tick loop still runs every other
brain exactly as it otherwise would, in the same tick and in subsequent
ticks — the loop never crashes. -/
theorem claim_C3_execute_swallows_exceptions (σ : Type)
    (pre post : List (BrainState σ)) (b : BrainState σ) (f : Script σ) (msg : String)
    (hcomp : b.compiled = some f)
    (hact : b.active = true) (hdead : b.dead = false)
    (hthrow : ∀ s, (f s).2 = some msg) :
    executeThrown b = some msg
    ∧ executeStep b
        = { b with agent := (f (b.agent, [])).1.1, lastTrace := (f (b.agent, [])).1.2 }
    ∧ tickLoop (pre ++ b :: post) = tickLoop pre ++ executeStep b :: tickLoop post
    ∧ tickLoop (tickLoop (pre ++ b :: post))
        = tickLoop (tickLoop pre) ++ executeStep (executeStep b) :: tickLoop (tickLoop post) := by
  have hguard : (!b.active || b.dead) = false := by rw [hact, hdead]; rfl
  refine ⟨?_, ?_, ?_, ?_⟩
  · unfold executeThrown
    rw [hcomp]
    simp only [hguard, Bool.false_eq_true, if_false]
    exact hthrow _
  · unfold executeStep
    rw [hcomp]
    simp only [hguard, Bool.false_eq_true, if_false]
  · unfold tickLoop
    rw [List.map_append, List.map_cons]
  · unfold tickLoop
    rw [List.map_append, List.map_cons, List.map_append, List.map_cons]

/-- Witness for C3 at a concrete throwing script over `ℕ` agents. -/
theorem claim_C3_execute_swallows_exceptions_witness :
    executeThrown sampleThrowBrain = some "boom"
    ∧ executeStep sampleThrowBrain
        = { sampleThrowBrain with
              agent := (sampleThrowScript (sampleThrowBrain.agent, [])).1.1,
              lastTrace := (sampleThrowScript (sampleThrowBrain.agent, [])).1.2 }
    ∧ tickLoop ([] ++ sampleThrowBrain :: [sampleIdleBrain])
        = tickLoop [] ++ executeStep sampleThrowBrain :: tickLoop [sampleIdleBrain]
    ∧ tickLoop (tickLoop ([] ++ sampleThrowBrain :: [sampleIdleBrain]))
        = tickLoop (tickLoop []) ++ executeStep (executeStep sampleThrowBrain)
            :: tickLoop (tickLoop [sampleIdleBrain]) :=
  claim_C3_execute_swallows_exceptions ℕ [] [sampleIdleBrain] sampleThrowBrain
    sampleThrowScript "boom" rfl rfl rfl (fun _ => rfl)

/-- C7 counterexample: calling `getSensorConstraints` on a fresh sandbox
appends no `TraceEntry` at all, so it is false that every sandbox operation
appends exactly one entry per call. -/
theorem claim_C7_getSensorConstraints_traces_nothing :
    (apiStep sampleEnv ApiCall.getSensorConstraints sampleSandbox).1.trace = [] := rfl

/-- C7 (amended): each sandbox operation appends exactly one `TraceEntry` per
call when the underlying engine call succeeds — except
`getSensorConstraints` and `getArenaBounds`, which never trace, and the
point-taking operations handed a malformed point, which return their guard
default without tracing — and appends none when the underlying call throws;
the pre-existing trace is always preserved as a prefix; and `execute` clears
the per-tick trace before the script runs, so afterwards `lastTrace` holds
exactly the current tick's entries. -/
theorem claim_C7_trace_per_call_amended :
    (∀ (env : ApiEnv) (c : ApiCall) (st : SandboxState),
      (apiStep env c st).1.trace.length
          = st.trace.length + (if expectTrace env c then 1 else 0)
      ∧ (apiStep env c st).1.trace.take st.trace.length = st.trace)
    ∧ (∀ env : ApiEnv, expectTrace env .getSensorConstraints = false
        ∧ expectTrace env .getArenaBounds = false)
    ∧ (∀ (env : ApiEnv) (c : ApiCall) (st : SandboxState),
        env.throws c = true → (apiStep env c st).1.trace = st.trace)
    ∧ (∀ (σ : Type) (b : BrainState σ) (f : Script σ),
        b.compiled = some f → b.active = true → b.dead = false →
        (executeStep b).lastTrace = (f (b.agent, [])).1.2) := by
  refine ⟨?_, ?_, ?_, ?_⟩
  · intro env c st
    constructor
    · cases c <;>
        first
          | (rename_i p
             rcases p with _ | p <;> simp only [apiStep] <;> (try split) <;>
               simp_all [expectTrace, pushTrace])
          | (simp only [apiStep] <;> (try split) <;> (try split) <;>
              simp_all [expectTrace, pushTrace])
    · cases c <;>
        first
          | (rename_i p
             rcases p with _ | p <;> simp only [apiStep] <;> (try split) <;>
               simp_all [pushTrace, List.take_left, List.take_length])
          | (simp only [apiStep] <;> (try split) <;> (try split) <;>
              simp_all [pushTrace, List.take_left, List.take_length])
  · intro env
    exact ⟨rfl, rfl⟩
  · intro env c st h
    cases c <;>
      first
        | (rename_i p
           rcases p with _ | p <;> simp only [apiStep] <;> (try split) <;> (try split) <;>
             simp_all [pushTrace])
        | (simp only [apiStep] <;> (try split) <;> (try split) <;> simp_all [pushTrace])
  · intro σ b f hcomp hact hdead
    have hguard : (!b.active || b.dead) = false := by rw [hact, hdead]; rfl
    unfold executeStep
    rw [hcomp]
    simp only [hguard, Bool.false_eq_true, if_false]

/-- C9: when the backend always returns code failing validation (every
regeneration result is unsuccessful, as is the first attempt),
`generateWithAutoRetry` makes at most `maxRetries` regeneration calls beyond
the first attempt and returns a failure whose error message names the
attempt budget and the last underlying error. -/
theorem claim_C9_autoRetry_bounded
    (regen : String → String → String → GenerationResult)
    (strategy : String) (first : GenerationResult) (maxRetries : ℕ)
    (hfail : ∀ s c e, (regen s c e).success = false)
    (hfirst : first.success = false) :
    (generateWithAutoRetry regen strategy first maxRetries).1.success = false
    ∧ (generateWithAutoRetry regen strategy first maxRetries).2 ≤ maxRetries
    ∧ (generateWithAutoRetry regen strategy first maxRetries).1.error
        = some ("Code generation failed after " ++ toString maxRetries
            ++ " attempts. Last error: "
            ++ renderOptStr (autoRetryLoop regen strategy maxRetries first
                ((truthyStr first.behaviorCode).getD
                  ((truthyStr first.rawResponse).getD ""))).1.error) := by
  have hloop : ∀ (fuel : ℕ) (result : GenerationResult) (lastCode : String),
      result.success = false →
      (autoRetryLoop regen strategy fuel result lastCode).1.success = false
      ∧ (autoRetryLoop regen strategy fuel result lastCode).2 ≤ fuel := by
    intro fuel
    induction fuel with
    | zero => intro result lastCode hres; exact ⟨hres, Nat.le_refl 0⟩
    | succ fuel ih =>
      intro result lastCode hres
      simp only [autoRetryLoop, hres, Bool.false_eq_true, if_false]
      by_cases hlc : lastCode.isEmpty
      · simp [hlc, hres]
      · simp only [hlc, Bool.false_eq_true, if_false]
        have := ih (regen strategy lastCode ((truthyStr result.error).getD "Unknown error"))
          (match truthyStr (regen strategy lastCode
              ((truthyStr result.error).getD "Unknown error")).behaviorCode with
            | some s => s
            | none =>
              match truthyStr (regen strategy lastCode
                  ((truthyStr result.error).getD "Unknown error")).rawResponse with
              | some s => s
              | none => lastCode)
          (hfail _ _ _)
        exact ⟨this.1, by omega⟩
  have hl := hloop maxRetries first
    ((truthyStr first.behaviorCode).getD ((truthyStr first.rawResponse).getD "")) hfirst
  unfold generateWithAutoRetry
  simp only [hl.1, Bool.not_false, if_true]
  refine ⟨by trivial, hl.2, ?_⟩
  trivial

/-- Witness for C9: an always-failing backend with `maxRetries = 3`. -/
theorem claim_C9_autoRetry_bounded_witness :
    (generateWithAutoRetry sampleRegenFail "strategy" sampleFirstFail 3).1.success = false
    ∧ (generateWithAutoRetry sampleRegenFail "strategy" sampleFirstFail 3).2 ≤ 3
    ∧ (generateWithAutoRetry sampleRegenFail "strategy" sampleFirstFail 3).1.error
        = some ("Code generation failed after " ++ toString 3
            ++ " attempts. Last error: "
            ++ renderOptStr (autoRetryLoop sampleRegenFail "strategy" 3 sampleFirstFail
                ((truthyStr sampleFirstFail.behaviorCode).getD
                  ((truthyStr sampleFirstFail.rawResponse).getD ""))).1.error) :=
  claim_C9_autoRetry_bounded sampleRegenFail "strategy" sampleFirstFail 3
    (fun _ _ _ => rfl) rfl

end PromptBattles
